import Mathlib

/-!
Verification of the conversation-history exchange contract of the MCP web
client (`src/web-client/src/App.js` together with the API adapter
`api.processQuery`).

The React component keeps three pieces of state: `conversation` (a list of
turns), `query` (the textarea text) and `isProcessing` (the in-flight flag).
We embed the component as an explicit state machine:

* `handleProcessQueryStart` is the synchronous first half of
  `handleProcessQuery`: the trim guard, the optimistic append of the user
  turn, setting `isProcessing`, and building the request
  `{ query, history: conversation.map(...) }` that `api.processQuery` posts.
* `resolveSuccess` / `resolveFailure` are the continuation after the awaited
  backend call resolves: the `try` branch (assistant turn from
  `response.message || response`, then `setQuery('')`) and the `catch`
  branch (assistant turn `Error: ...`), each followed by the `finally`
  `setIsProcessing(false)`.
* `step` is the UI event level: a click or keypress reaches a handler only
  when the corresponding control is enabled, exactly as in the JSX
  (`disabled={!query.trim() || isProcessing}` on the submit button,
  `disabled={isProcessing}` on the textarea, and
  `disabled={conversation.length === 0 || isProcessing}` on the clear
  button), and a resolution event only fires while a request is in flight.

Backend payloads and turn contents are JavaScript values, modelled as either
a string or a flat JSON object with string-valued fields; the backend's wire
contract is `{ message: string }`, so this is enough to express every field
access the code performs.
-/

/-- A JavaScript value as it occurs in turn contents and backend payloads:
a string, or a flat JSON object with string-valued fields. -/
inductive JVal where
  | jstr (s : String)
  | jobj (fields : List (String × String))
deriving DecidableEq, Repr

/-- JS truthiness of a string: every string except `""` is truthy. -/
def strTruthy (s : String) : Bool := s ≠ ""

/-- JS `String.prototype.trim`: strip leading and trailing whitespace. -/
def jsTrim (s : String) : String :=
  String.mk (((s.data.dropWhile Char.isWhitespace).reverse.dropWhile Char.isWhitespace).reverse)

/-- The `response.message` property access: a string payload has no
`message` field; an object payload looks it up. -/
def JVal.messageField : JVal → Option String
  | .jstr _ => none
  | .jobj fields => fields.lookup "message"

/-- `response.message || response` (App.js line 35): the `message` field if
it is present and truthy, otherwise the raw payload. -/
def responseContent (resp : JVal) : JVal :=
  match resp.messageField with
  | some m => if strTruthy m then .jstr m else resp
  | none => resp

/-- `error.message || 'Failed to process query'` (App.js line 44). -/
def errorReason : Option String → String
  | some m => if strTruthy m then m else "Failed to process query"
  | none => "Failed to process query"

/-- The content of the error turn: the template literal
`Error: ${error.message || 'Failed to process query'}`. -/
def errorContent (errMessage : Option String) : String :=
  "Error: " ++ errorReason errMessage

/-- One conversation entry: `{ role, content }`. -/
structure Turn where
  role : String
  content : JVal
deriving DecidableEq, Repr

/-- The component state: `useState([])`, `useState('')`, `useState(false)`. -/
structure AppState where
  conversation : List Turn
  query : String
  isProcessing : Bool
deriving DecidableEq, Repr

/-- The initial state of the component. -/
def initialState : AppState := ⟨[], "", false⟩

/-- The body `api.processQuery` posts to `/api/process`:
`{ query, history: conversationHistory }`. -/
structure Request where
  query : String
  history : List Turn
deriving DecidableEq, Repr

/-- The synchronous first half of `handleProcessQuery`: the
`if (!query.trim()) return` guard, the optimistic
`setConversation([...conversation, userMessage])`, `setIsProcessing(true)`,
and the request built from `historyForApi = conversation.map(entry => ({
role: entry.role, content: entry.content }))` — the conversation captured
before the user turn was appended. Returns the new state and the request
handed to the backend (`none` when the guard rejected the submission). -/
def handleProcessQueryStart (s : AppState) : AppState × Option Request :=
  if jsTrim s.query = "" then (s, none)
  else
    let userMessage : Turn := { role := "user", content := .jstr s.query }
    let historyForApi :=
      s.conversation.map (fun entry => ({ role := entry.role, content := entry.content } : Turn))
    ({ s with conversation := s.conversation ++ [userMessage], isProcessing := true },
     some { query := s.query, history := historyForApi })

/-- The `try` continuation after `await api.processQuery` succeeds: append
the assistant turn with content `response.message || response`, clear the
input with `setQuery('')`, and run the `finally` `setIsProcessing(false)`. -/
def resolveSuccess (s : AppState) (resp : JVal) : AppState :=
  let assistantMessage : Turn := { role := "assistant", content := responseContent resp }
  { s with conversation := s.conversation ++ [assistantMessage],
           query := "", isProcessing := false }

/-- The `catch` continuation after the backend call fails: append the
assistant turn `Error: ${error.message || 'Failed to process query'}` and
run the `finally` `setIsProcessing(false)`. The input is not cleared. -/
def resolveFailure (s : AppState) (errMessage : Option String) : AppState :=
  let errorMessage : Turn := { role := "assistant", content := .jstr (errorContent errMessage) }
  { s with conversation := s.conversation ++ [errorMessage], isProcessing := false }

/-- `handleClearHistory`: `setConversation([])`, unconditionally. -/
def handleClearHistory (s : AppState) : AppState := { s with conversation := [] }

/-- How the awaited backend call resolves: success carries `response.data`,
failure carries the thrown error's `message` (absent or empty when the
error object has no usable message). -/
inductive Outcome where
  | success (resp : JVal)
  | failure (errMessage : Option String)
deriving DecidableEq, Repr

/-- UI events. `submitClick` is the Process Query button, `submitEnter` the
Enter keypress in the textarea, `resolve` the backend call resolving,
`clearClick` the Clear History button, `typeText` the textarea `onChange`. -/
inductive Event where
  | submitClick
  | submitEnter
  | resolve (o : Outcome)
  | clearClick
  | typeText (t : String)
deriving DecidableEq, Repr

/-- One UI step. Each handler fires only when its control is enabled,
exactly per the `disabled` attributes in the JSX; a resolution event only
exists while a request is in flight. -/
def step (s : AppState) : Event → AppState
  | .submitClick =>
      if jsTrim s.query = "" ∨ s.isProcessing then s
      else (handleProcessQueryStart s).1
  | .submitEnter =>
      if s.isProcessing then s else (handleProcessQueryStart s).1
  | .resolve o =>
      if s.isProcessing then
        match o with
        | .success resp => resolveSuccess s resp
        | .failure em => resolveFailure s em
      else s
  | .clearClick =>
      if s.conversation = [] ∨ s.isProcessing then s else handleClearHistory s
  | .typeText t =>
      if s.isProcessing then s else { s with query := t }

/-- Run a sequence of UI events from a state. -/
def runEvents (s : AppState) (es : List Event) : AppState := es.foldl step s

/-- The states the component can reach from its initial state. -/
inductive Reachable : AppState → Prop where
  | init : Reachable initialState
  | next {s : AppState} (e : Event) : Reachable s → Reachable (step s e)

/-- Every turn in the list is attributed to the user or the assistant. -/
def rolesOk (l : List Turn) : Prop :=
  ∀ t ∈ l, t.role = "user" ∨ t.role = "assistant"

/-- A complete successful submission: type the query, click Process Query,
and let the backend call resolve successfully with payload `resp`. -/
def submission (s : AppState) (q : String) (resp : JVal) : AppState :=
  step (step (step s (.typeText q)) .submitClick) (.resolve (.success resp))

/-- Run a sequence of successful submissions. -/
def runSubmissions (s : AppState) : List (String × JVal) → AppState
  | [] => s
  | (q, r) :: rest => runSubmissions (submission s q r) rest

/-- The conversation produced by a sequence of successful submissions:
each query contributes its user turn immediately followed by its
assistant turn. -/
def pairTurns : List (String × JVal) → List Turn
  | [] => []
  | (q, r) :: rest =>
      ⟨"user", .jstr q⟩ :: ⟨"assistant", responseContent r⟩ :: pairTurns rest

/-- Submission and Enter-keypress events, as opposed to resolutions,
clears and typing. -/
def isSubmitEvent : Event → Bool
  | .submitClick => true
  | .submitEnter => true
  | .resolve _ => false
  | .clearClick => false
  | .typeText _ => false

/-! ## Helper lemmas -/

/-- The `historyForApi` projection `entry => ({ role, content })` copies each
turn unchanged. -/
theorem map_role_content_id (l : List Turn) :
    l.map (fun entry => ({ role := entry.role, content := entry.content } : Turn)) = l := by
  induction l with
  | nil => rfl
  | cons a t ih => simp [ih]

/-- A complete successful submission from a quiescent state with a non-blank
query appends exactly the user turn and the assistant turn, clears the
input, and returns to the quiescent flag. -/
theorem submission_eq (s : AppState) (q : String) (resp : JVal)
    (hp : s.isProcessing = false) (hq : ¬ jsTrim q = "") :
    submission s q resp =
      ⟨s.conversation ++ [⟨"user", .jstr q⟩, ⟨"assistant", responseContent resp⟩],
        "", false⟩ := by
  simp [submission, step, hp, hq, handleProcessQueryStart, resolveSuccess,
    map_role_content_id]

/-- Running successful submissions with non-blank queries appends the
corresponding user/assistant pairs and ends quiescent. -/
theorem runSubmissions_spec (l : List (String × JVal)) :
    ∀ s : AppState, s.isProcessing = false →
    (∀ p ∈ l, ¬ jsTrim p.1 = "") →
    (runSubmissions s l).conversation = s.conversation ++ pairTurns l ∧
    (runSubmissions s l).isProcessing = false := by
  induction l with
  | nil => intro s hp _; simp [runSubmissions, pairTurns, hp]
  | cons p rest ih =>
    intro s hp hl
    obtain ⟨q, r⟩ := p
    have hq : ¬ jsTrim q = "" := hl (q, r) (List.mem_cons_self _ _)
    have hrest : ∀ x ∈ rest, ¬ jsTrim x.1 = "" :=
      fun x hx => hl x (List.mem_cons_of_mem _ hx)
    rw [runSubmissions, submission_eq s q r hp hq]
    obtain ⟨h1, h2⟩ := ih
      ⟨s.conversation ++ [⟨"user", .jstr q⟩, ⟨"assistant", responseContent r⟩],
        "", false⟩ rfl hrest
    refine ⟨?_, h2⟩
    rw [h1]
    simp [pairTurns]

/-- Each submission contributes exactly two turns. -/
theorem pairTurns_length (l : List (String × JVal)) :
    (pairTurns l).length = 2 * l.length := by
  induction l with
  | nil => rfl
  | cons p rest ih =>
    obtain ⟨q, r⟩ := p
    simp [pairTurns, ih]
    omega

/-- From an empty, quiescent conversation, events other than submissions
keep the conversation empty and the flag down. -/
theorem runEvents_nonsubmit_keeps_empty (es : List Event) :
    ∀ s : AppState, s.conversation = [] → s.isProcessing = false →
    (∀ e ∈ es, isSubmitEvent e = false) →
    (runEvents s es).conversation = [] ∧ (runEvents s es).isProcessing = false := by
  induction es with
  | nil => intro s h1 h2 _; exact ⟨h1, h2⟩
  | cons e rest ih =>
    intro s h1 h2 hes
    have he : isSubmitEvent e = false := hes e (List.mem_cons_self _ _)
    have hrest : ∀ x ∈ rest, isSubmitEvent x = false :=
      fun x hx => hes x (List.mem_cons_of_mem _ hx)
    have hstep : runEvents s (e :: rest) = runEvents (step s e) rest := rfl
    rw [hstep]
    cases e with
    | submitClick => simp [isSubmitEvent] at he
    | submitEnter => simp [isSubmitEvent] at he
    | resolve o => exact ih _ (by simp [step, h2, h1]) (by simp [step, h2]) hrest
    | clearClick => exact ih _ (by simp [step, h1]) (by simp [step, h1, h2]) hrest
    | typeText t => exact ih _ (by simp [step, h2, h1]) (by simp [step, h2]) hrest

/-- Appending a turn with a legal role preserves `rolesOk`. -/
theorem rolesOk_append_single (l : List Turn) (t : Turn)
    (hl : rolesOk l) (ht : t.role = "user" ∨ t.role = "assistant") :
    rolesOk (l ++ [t]) := by
  intro x hx
  rcases List.mem_append.1 hx with h | h
  · exact hl x h
  · have hxt : x = t := List.mem_singleton.1 h
    subst hxt
    exact ht

/-- Every UI step preserves the role invariant: submissions append a user
turn, resolutions append an assistant turn, clearing empties, typing does
not touch the conversation. -/
theorem step_preserves_rolesOk (s : AppState) (e : Event)
    (h : rolesOk s.conversation) : rolesOk (step s e).conversation := by
  cases e with
  | submitClick =>
    simp only [step]
    split
    · exact h
    · simp only [handleProcessQueryStart]
      split
      · exact h
      · exact rolesOk_append_single _ _ h (Or.inl rfl)
  | submitEnter =>
    simp only [step]
    split
    · exact h
    · simp only [handleProcessQueryStart]
      split
      · exact h
      · exact rolesOk_append_single _ _ h (Or.inl rfl)
  | resolve o =>
    simp only [step]
    split
    · cases o with
      | success resp => exact rolesOk_append_single _ _ h (Or.inr rfl)
      | failure em => exact rolesOk_append_single _ _ h (Or.inr rfl)
    · exact h
  | clearClick =>
    simp only [step]
    split
    · exact h
    · intro t ht; cases ht
  | typeText t =>
    simp only [step]
    split
    · exact h
    · exact h

/-! ## Claims -/

/-- Claim C1: while a submission's backend request is outstanding
(`isProcessing` is true), a further submit event (button click or Enter
keypress) and a clear event are no-ops: the state, in particular the
conversation store, is unchanged by them until the request resolves, so at
most one exchange is ever in flight. -/
theorem processing_blocks_submit_and_clear (s : AppState)
    (h : s.isProcessing = true) :
    step s .submitClick = s ∧ step s .submitEnter = s ∧ step s .clearClick = s := by
  refine ⟨?_, ?_, ?_⟩ <;> simp [step, h]

/-- Witness for C1 at a concrete mid-flight state. -/
theorem processing_blocks_submit_and_clear_witness :
    (AppState.mk [⟨"user", .jstr "hi"⟩] "hi" true).isProcessing = true ∧
    (step (AppState.mk [⟨"user", .jstr "hi"⟩] "hi" true) .submitClick =
        AppState.mk [⟨"user", .jstr "hi"⟩] "hi" true ∧
      step (AppState.mk [⟨"user", .jstr "hi"⟩] "hi" true) .submitEnter =
        AppState.mk [⟨"user", .jstr "hi"⟩] "hi" true ∧
      step (AppState.mk [⟨"user", .jstr "hi"⟩] "hi" true) .clearClick =
        AppState.mk [⟨"user", .jstr "hi"⟩] "hi" true) :=
  ⟨rfl, processing_blocks_submit_and_clear _ rfl⟩

/-- Counterexample for C2 as stated: on the successful response
`{message: ""}` the message field is present (and equals `""`), yet the
appended assistant turn's content is the raw payload object, not the
message field: `response.message || response` falls back to the raw
response for every falsy `message`, not only when the field is absent. -/
theorem success_content_empty_message_cex :
    ((step ⟨[⟨"user", .jstr "q"⟩], "q", true⟩
        (.resolve (.success (.jobj [("message", "")])))).conversation.getLast? =
      some ⟨"assistant", .jobj [("message", "")]⟩) ∧
    (JVal.jobj [("message", "")]).messageField = some "" ∧
    JVal.jobj [("message", "")] ≠ JVal.jstr "" := by
  decide

/-- Claim C2 (amended): for every submission whose backend call succeeds,
the appended assistant turn's content is `responseContent` of the payload:
it equals the payload's message field whenever that field is present and
non-empty, and it equals the raw payload exactly when the message field is
absent or empty (the JS-falsy case). -/
theorem success_turn_content_characterization (s : AppState) (resp : JVal)
    (h : s.isProcessing = true) :
    (step s (.resolve (.success resp))).conversation.getLast? =
      some ⟨"assistant", responseContent resp⟩ ∧
    (∀ m, resp.messageField = some m → strTruthy m = true →
      responseContent resp = .jstr m) ∧
    ((resp.messageField = none ∨ resp.messageField = some "") ↔
      responseContent resp = resp) := by
  refine ⟨?_, ?_, ?_⟩
  · simp [step, h, resolveSuccess]
  · intro m hm ht; simp [responseContent, hm, ht]
  · cases resp with
    | jstr s0 => simp [JVal.messageField, responseContent]
    | jobj fields =>
      cases hm : (JVal.jobj fields).messageField with
      | none => simp [responseContent, hm]
      | some m =>
        by_cases hm0 : m = ""
        · subst hm0; simp [responseContent, hm, strTruthy]
        · simp [responseContent, hm, strTruthy, hm0]

/-- Witness for the amended C2: a successful resolution with payload
`{message: "hi"}` appends an assistant turn whose content is `"hi"`. -/
theorem success_turn_content_characterization_witness :
    (step (AppState.mk [] "q" true)
        (.resolve (.success (.jobj [("message", "hi")])))).conversation.getLast? =
      some ⟨"assistant", responseContent (.jobj [("message", "hi")])⟩ :=
  (success_turn_content_characterization (AppState.mk [] "q" true)
    (.jobj [("message", "hi")]) rfl).1

/-- Claim C3: submitting a query that is empty or whitespace-only after
trimming leaves the state unchanged (whether via the button or the Enter
keypress) and issues no backend request. -/
theorem empty_query_rejected_locally (s : AppState) (h : jsTrim s.query = "") :
    step s .submitClick = s ∧ step s .submitEnter = s ∧
    (handleProcessQueryStart s).2 = none := by
  refine ⟨?_, ?_, ?_⟩
  · simp [step, h]
  · cases hp : s.isProcessing <;> simp [step, handleProcessQueryStart, h, hp]
  · simp [handleProcessQueryStart, h]

/-- Witness for C3 on the whitespace-only query `"  "`. -/
theorem empty_query_rejected_locally_witness :
    jsTrim "  " = "" ∧
    (step (AppState.mk [] "  " false) .submitClick = AppState.mk [] "  " false ∧
      step (AppState.mk [] "  " false) .submitEnter = AppState.mk [] "  " false ∧
      (handleProcessQueryStart (AppState.mk [] "  " false)).2 = none) :=
  ⟨by decide, empty_query_rejected_locally _ (by decide)⟩

/-- Claim C4: the request issued for a submission carries as history exactly
the conversation as it was before the pending user turn was appended, so
the request history never contains the in-flight query's user turn, which
is appended to the store right after it. -/
theorem request_history_excludes_pending_turn (s : AppState)
    (h : ¬ jsTrim s.query = "") :
    (handleProcessQueryStart s).2 = some ⟨s.query, s.conversation⟩ ∧
    (handleProcessQueryStart s).1.conversation =
      s.conversation ++ [⟨"user", .jstr s.query⟩] := by
  simp [handleProcessQueryStart, h, map_role_content_id]

/-- Witness for C4: submitting `"b"` over a one-turn conversation sends
only that prior turn as history. -/
theorem request_history_excludes_pending_turn_witness :
    ¬ jsTrim "b" = "" ∧
    ((handleProcessQueryStart (AppState.mk [⟨"user", .jstr "a"⟩] "b" false)).2 =
        some ⟨"b", [⟨"user", .jstr "a"⟩]⟩ ∧
      (handleProcessQueryStart (AppState.mk [⟨"user", .jstr "a"⟩] "b" false)).1.conversation =
        [⟨"user", .jstr "a"⟩] ++ [⟨"user", .jstr "b"⟩]) :=
  ⟨by decide, request_history_excludes_pending_turn _ (by decide)⟩

/-- Claim C5: a failed backend call is absorbed by the catch branch — the
step function is total, no exception escapes to the UI — and it appends
exactly one assistant turn whose content carries the `Error: ` marker, so
the conversation still ends in the user turn followed by an assistant
turn, and the in-flight flag is released. -/
theorem transport_failure_yields_error_turn (s : AppState) (em : Option String)
    (hq : ¬ jsTrim s.query = "") (hp : s.isProcessing = false) :
    (step (step s .submitClick) (.resolve (.failure em))).conversation =
      s.conversation ++ [⟨"user", .jstr s.query⟩,
        ⟨"assistant", .jstr ("Error: " ++ errorReason em)⟩] ∧
    (step (step s .submitClick) (.resolve (.failure em))).isProcessing = false := by
  simp [step, hq, hp, handleProcessQueryStart, resolveFailure, errorContent]

/-- Witness for C5: a failing call with no error message yields the default
error turn after the user turn. -/
theorem transport_failure_yields_error_turn_witness :
    ¬ jsTrim "q" = "" ∧ (AppState.mk [] "q" false).isProcessing = false ∧
    ((step (step (AppState.mk [] "q" false) .submitClick)
        (.resolve (.failure none))).conversation =
      [] ++ [⟨"user", .jstr "q"⟩,
        ⟨"assistant", .jstr ("Error: " ++ errorReason none)⟩] ∧
    (step (step (AppState.mk [] "q" false) .submitClick)
        (.resolve (.failure none))).isProcessing = false) :=
  ⟨by decide, rfl, transport_failure_yields_error_turn _ none (by decide) rfl⟩

/-- Claim C6: starting from the empty conversation, a sequence of N
successful submissions of non-blank queries yields exactly the N
user/assistant pairs, in order — each user turn immediately followed by
its assistant turn — so the conversation length is exactly 2N, and no
submission contributes more or fewer than one turn of each role. -/
theorem successful_submissions_form_pairs (l : List (String × JVal))
    (hl : ∀ p ∈ l, ¬ jsTrim p.1 = "") :
    (runSubmissions initialState l).conversation = pairTurns l ∧
    (runSubmissions initialState l).conversation.length = 2 * l.length := by
  obtain ⟨h1, _⟩ := runSubmissions_spec l initialState rfl hl
  have h2 : (runSubmissions initialState l).conversation = pairTurns l := by
    simpa [initialState] using h1
  exact ⟨h2, by rw [h2, pairTurns_length]⟩

/-- Witness for C6 on two concrete successful submissions. -/
theorem successful_submissions_form_pairs_witness :
    ((runSubmissions initialState
        [("a", JVal.jstr "x"), ("b", JVal.jobj [("message", "m")])]).conversation =
      pairTurns [("a", JVal.jstr "x"), ("b", JVal.jobj [("message", "m")])]) ∧
    (runSubmissions initialState
        [("a", JVal.jstr "x"), ("b", JVal.jobj [("message", "m")])]).conversation.length =
      2 * ([("a", JVal.jstr "x"), ("b", JVal.jobj [("message", "m")])] :
        List (String × JVal)).length :=
  successful_submissions_form_pairs _ (by decide)

/-- Claim C7: the user turn is appended optimistically at submission time —
while the request is still in flight (`isProcessing` is raised and no
assistant turn exists yet) — and the assistant turn is appended only by
the resolution event; a failed resolution never removes the user turn, it
only appends the error reply after it. -/
theorem optimistic_append_ordering (s : AppState)
    (hq : ¬ jsTrim s.query = "") (hp : s.isProcessing = false) :
    (step s .submitClick).conversation = s.conversation ++ [⟨"user", .jstr s.query⟩] ∧
    (step s .submitClick).isProcessing = true ∧
    (∀ em, (step (step s .submitClick) (.resolve (.failure em))).conversation =
      s.conversation ++ [⟨"user", .jstr s.query⟩, ⟨"assistant", .jstr (errorContent em)⟩]) ∧
    (∀ resp, (step (step s .submitClick) (.resolve (.success resp))).conversation =
      s.conversation ++ [⟨"user", .jstr s.query⟩, ⟨"assistant", responseContent resp⟩]) := by
  refine ⟨?_, ?_, ?_, ?_⟩ <;>
    simp [step, hq, hp, handleProcessQueryStart, resolveFailure, resolveSuccess]

/-- Witness for C7: the user turn is in the store while the request for
`"q"` is in flight, and a failure only appends after it. -/
theorem optimistic_append_ordering_witness :
    (step (AppState.mk [] "q" false) .submitClick).conversation =
      [] ++ [⟨"user", .jstr "q"⟩] ∧
    (step (AppState.mk [] "q" false) .submitClick).isProcessing = true ∧
    (step (step (AppState.mk [] "q" false) .submitClick)
        (.resolve (.failure (some "boom")))).conversation =
      [] ++ [⟨"user", .jstr "q"⟩, ⟨"assistant", .jstr (errorContent (some "boom"))⟩] :=
  ⟨(optimistic_append_ordering _ (by decide) rfl).1,
    (optimistic_append_ordering _ (by decide) rfl).2.1,
    (optimistic_append_ordering _ (by decide) rfl).2.2.1 (some "boom")⟩

/-- Claim C8: `handleClearHistory` empties the conversation in every state,
and after a clear event fired from a quiescent state (the only states in
which the Clear History control is enabled) every later read before the
next submission — across any events other than submissions — still sees
the empty conversation. -/
theorem clear_empties_until_next_submission (s : AppState) (es : List Event)
    (hp : s.isProcessing = false) (hes : ∀ e ∈ es, isSubmitEvent e = false) :
    (handleClearHistory s).conversation = [] ∧
    (runEvents (step s .clearClick) es).conversation = [] := by
  refine ⟨rfl, ?_⟩
  have h1 : (step s .clearClick).conversation = [] := by
    by_cases hc : s.conversation = [] <;> simp [step, hc, hp, handleClearHistory]
  have h2 : (step s .clearClick).isProcessing = false := by
    by_cases hc : s.conversation = [] <;> simp [step, hc, hp, handleClearHistory]
  exact (runEvents_nonsubmit_keeps_empty es _ h1 h2 hes).1

/-- Witness for C8: clearing a two-turn conversation and then typing and
seeing a stray resolution still reads back an empty conversation. -/
theorem clear_empties_until_next_submission_witness :
    (handleClearHistory
        (AppState.mk [⟨"user", .jstr "x"⟩, ⟨"assistant", .jstr "y"⟩] "q" false)).conversation = [] ∧
    (runEvents
        (step (AppState.mk [⟨"user", .jstr "x"⟩, ⟨"assistant", .jstr "y"⟩] "q" false) .clearClick)
        [.typeText "z", .resolve (.failure none), .clearClick]).conversation = [] :=
  clear_empties_until_next_submission _ _ rfl (by decide)

/-- Claim C9: in every reachable state each turn's role is `"user"` or
`"assistant"`; moreover the turn a submission appends carries role
`"user"`, and the turn appended on a backend success or failure carries
role `"assistant"`, so no operation ever appends any other role. -/
theorem reachable_turn_roles (s : AppState) (h : Reachable s) :
    rolesOk s.conversation ∧
    (∀ resp, (resolveSuccess s resp).conversation.getLast? =
      some ⟨"assistant", responseContent resp⟩) ∧
    (∀ em, (resolveFailure s em).conversation.getLast? =
      some ⟨"assistant", .jstr (errorContent em)⟩) ∧
    (¬ jsTrim s.query = "" →
      (handleProcessQueryStart s).1.conversation.getLast? =
        some ⟨"user", .jstr s.query⟩) := by
  refine ⟨?_, ?_, ?_, ?_⟩
  · induction h with
    | init => intro t ht; simp [initialState] at ht
    | next e _ ih => exact step_preserves_rolesOk _ e ih
  · intro resp; simp [resolveSuccess]
  · intro em; simp [resolveFailure]
  · intro hq; simp [handleProcessQueryStart, hq]

/-- Witness for C9 at the reachable state obtained by typing `"hi"` and
submitting it. -/
theorem reachable_turn_roles_witness :
    rolesOk (step (step initialState (.typeText "hi")) .submitClick).conversation :=
  (reachable_turn_roles _ (Reachable.next _ (Reachable.next _ Reachable.init))).1

/-- Claim C10: the input text is cleared exactly by a successful
resolution; a failed resolution leaves the submitted query in the input,
and clearing the history (the handler as well as the guarded event)
leaves the input untouched, so a failed query can be resubmitted. -/
theorem input_cleared_only_on_success (s : AppState)
    (hq : ¬ jsTrim s.query = "") (hp : s.isProcessing = false) :
    (∀ resp, (step (step s .submitClick) (.resolve (.success resp))).query = "") ∧
    (∀ em, (step (step s .submitClick) (.resolve (.failure em))).query = s.query) ∧
    (step s .clearClick).query = s.query ∧
    (handleClearHistory s).query = s.query := by
  refine ⟨?_, ?_, ?_, ?_⟩
  · intro resp; simp [step, hq, hp, handleProcessQueryStart, resolveSuccess]
  · intro em; simp [step, hq, hp, handleProcessQueryStart, resolveFailure]
  · by_cases hc : s.conversation = [] <;> simp [step, hc, hp, handleClearHistory]
  · rfl

/-- Witness for C10: after a failed submission of `"q"` the input still
holds `"q"`; a successful one clears it. -/
theorem input_cleared_only_on_success_witness :
    (step (step (AppState.mk [] "q" false) .submitClick)
        (.resolve (.success (.jstr "ok")))).query = "" ∧
    (step (step (AppState.mk [] "q" false) .submitClick)
        (.resolve (.failure none))).query = "q" ∧
    (step (AppState.mk [] "q" false) .clearClick).query = "q" :=
  ⟨(input_cleared_only_on_success _ (by decide) rfl).1 (.jstr "ok"),
    (input_cleared_only_on_success _ (by decide) rfl).2.1 none,
    (input_cleared_only_on_success _ (by decide) rfl).2.2.1⟩
